import Mathlib

/-!
Shallow embedding of the explicit descriptor heap allocator and deduplicating
descriptor table cache from `D3D12ExplicitDescriptorCache.cpp`.

Machine integers are modelled as `Nat` / `Int`; the descriptor counts involved
are far below 2^31, so wraparound does not occur on the modelled inputs.
Logging and stat counters are modelled as event counters threaded through a
`Globals` record; the fatal log path is modelled as a sticky counter.
-/

namespace D3D12

/-- The two descriptor heap types used by the cache
(`D3D12_DESCRIPTOR_HEAP_TYPE_CBV_SRV_UAV` and `D3D12_DESCRIPTOR_HEAP_TYPE_SAMPLER`). -/
inductive EHeapType where
  | CbvSrvUav
  | Sampler
deriving DecidableEq, Repr

/-- `D3D12_MAX_SHADER_VISIBLE_SAMPLER_HEAP_SIZE` from the D3D12 headers. -/
def D3D12_MAX_SHADER_VISIBLE_SAMPLER_HEAP_SIZE : Nat := 2048

/-- `D3D12_MAX_SHADER_VISIBLE_DESCRIPTOR_HEAP_SIZE_TIER_1` from the D3D12 headers. -/
def D3D12_MAX_SHADER_VISIBLE_DESCRIPTOR_HEAP_SIZE_TIER_1 : Nat := 1000000

/-- `INDEX_NONE`: the failure sentinel returned by the allocation functions. -/
def INDEX_NONE : Int := -1

/-- Helper loop for `RoundUpToPowerOfTwo`: starting from the power of two `p`,
double at most `fuel` times until `v ≤ p`. -/
def roundUpPow2Go (v : Nat) : Nat → Nat → Nat
  | 0, p => p
  | fuel + 1, p => if v ≤ p then p else roundUpPow2Go v fuel (2 * p)

/-- `FMath::RoundUpToPowerOfTwo` on `uint32` inputs: the least power of two
that is `≥ v` (and `1` for `v = 0`, matching `1 << CeilLogTwo(0)`).
32 doubling steps suffice for every `uint32` input. -/
def RoundUpToPowerOfTwo (v : Nat) : Nat :=
  roundUpPow2Go v 32 1

/-- Process-wide mutable state of the translation unit: the
`r.D3D12.ExplicitDescriptorHeap.ViewDescriptorHeapSize` cvar
(`GD3D12ExplicitViewDescriptorHeapSize`, default 250000), the one-shot view
overflow report flag (`GD3D12ExplicitViewDescriptorHeapOverflowReported`), and
event counters standing for the `UE_LOG(..., Error, ...)` and
`UE_LOG(..., Fatal, ...)` calls. -/
structure Globals where
  viewDescriptorHeapSize : Nat
  overflowReported : Bool
  errorLogCount : Nat
  fatalCount : Nat
deriving DecidableEq, Repr

/-- Default globals: cvar at its default of 250000, nothing reported yet. -/
def Globals.default : Globals :=
  { viewDescriptorHeapSize := 250000
  , overflowReported := false
  , errorLogCount := 0
  , fatalCount := 0 }

namespace FD3D12ExplicitDescriptorHeap

/-- State of one `FD3D12ExplicitDescriptorHeap`: its type, fixed capacity
(`MaxNumDescriptors`), the atomic linear-allocation cursor
(`NumAllocatedDescriptors`), the shadow copy of written descriptors
(`Descriptors`; only maintained by `CopyDescriptors` when the full-compare
build flag is set), the GPU-visible heap contents written through
`FD3D12Device::CopyDescriptors` (`HeapMemory`), the atomically tracked count of
confirmed-written sampler descriptors, and the cached
`r.D3D12.ExplicitDescriptorHeap.DeduplicateSamplers` cvar value. -/
structure State where
  heapType : EHeapType
  MaxNumDescriptors : Nat
  NumAllocatedDescriptors : Nat
  Descriptors : List Nat
  HeapMemory : List Nat
  NumWrittenSamplerDescriptors : Nat
  bExhaustiveSamplerDeduplication : Bool
deriving DecidableEq, Repr

/-- `FD3D12ExplicitDescriptorHeap::Allocate`: atomically adds `n` to the
cursor and returns the previous cursor value, or `-1` when the post-increment
cursor would exceed `MaxNumDescriptors`.  On overflow, a sampler heap raises
the fatal log; a view heap logs an error, but only when the heap has reached
the configured cvar size and the process-wide report flag was still unset. -/
def Allocate (h : State) (g : Globals) (n : Nat) : Int × State × Globals :=
  -- the InterlockedAdd advances the cursor unconditionally, before the check
  let h' := { h with NumAllocatedDescriptors := h.NumAllocatedDescriptors + n }
  let rg : Int × Globals :=
    if h.NumAllocatedDescriptors + n > h.MaxNumDescriptors then
      if h.heapType = EHeapType.Sampler then
        (-1, { g with fatalCount := g.fatalCount + 1 })
      else if g.viewDescriptorHeapSize ≤ h.MaxNumDescriptors then
        -- InterlockedOr sets the flag; the error is logged only if it was unset.
        (-1, { g with overflowReported := true
                    , errorLogCount :=
                        if g.overflowReported then g.errorLogCount
                        else g.errorLogCount + 1 })
      else
        (-1, g)
    else
      ((h.NumAllocatedDescriptors : Int), g)
  (rg.1, h', rg.2)

/-- Run a sequence of `Allocate` calls, collecting each call's result. -/
def runAllocate (h : State) (g : Globals) : List Nat → State × Globals × List Int
  | [] => (h, g, [])
  | n :: rest =>
    let a := Allocate h g n
    let res := runAllocate a.2.1 a.2.2 rest
    (res.1, res.2.1, a.1 :: res.2.2)

/-- A fresh heap state as produced by `Init` before any allocation:
cursor at zero, `NumWrittenSamplerDescriptors` at zero. -/
def fresh (t : EHeapType) (maxDescriptors : Nat) (dedup : Bool) : State :=
  { heapType := t
  , MaxNumDescriptors := maxDescriptors
  , NumAllocatedDescriptors := 0
  , Descriptors :=
      if dedup ∧ t = EHeapType.Sampler then List.replicate maxDescriptors 0 else []
  , HeapMemory := List.replicate maxDescriptors 0
  , NumWrittenSamplerDescriptors := 0
  , bExhaustiveSamplerDeduplication := dedup }

end FD3D12ExplicitDescriptorHeap

namespace FD3D12ExplicitDescriptorHeapCache

/-- `FD3D12ExplicitDescriptorHeapCache::FEntry`: a pooled descriptor heap.
`HeapId` stands for the native `ID3D12DescriptorHeap*` handle.  Time is
modelled as an abstract `Nat` tick count. -/
structure FEntry where
  eType : EHeapType
  NumDescriptors : Nat
  HeapId : Nat
  LastUsedFrame : Nat
  LastUsedTime : Nat
deriving DecidableEq, Repr

instance : Inhabited FEntry :=
  ⟨{ eType := EHeapType.CbvSrvUav, NumDescriptors := 0, HeapId := 0
   , LastUsedFrame := 0, LastUsedTime := 0 }⟩

/-- State of the `FD3D12ExplicitDescriptorHeapCache`: the free list, the count
of outstanding (allocated) entries, the heap handles handed to the deferred
deletion queue so far, and a counter used to mint fresh heap handles
(standing for `CreateDescriptorHeap`). -/
structure State where
  FreeList : List FEntry
  NumAllocatedEntries : Nat
  DeferredDeletions : List Nat
  NextHeapId : Nat
deriving DecidableEq, Repr

/-- `TArray::RemoveAtSwap`: move the last element into slot `i` and drop the
last slot.  Callers always pass `i < l.length`. -/
def removeAtSwap (l : List α) (i : Nat) : List α :=
  match l with
  | [] => []
  | x :: xs =>
    if i + 1 = (x :: xs).length then (x :: xs).dropLast
    else ((x :: xs).dropLast).set i ((x :: xs).getLastD x)

theorem removeAtSwap_length (l : List α) (i : Nat) :
    (removeAtSwap l i).length = l.length - 1 := by
  cases l with
  | nil => simp [removeAtSwap]
  | cons x xs =>
    simp only [removeAtSwap]
    split <;> simp

/-- The staleness test from `ReleaseStaleEntries`:
`(LastUsedFrame + MaxAgeInFrames) <= CurrentFrame || (LastUsedTime + MaxAgeInSeconds) <= CurrentTime`. -/
def isStale (MaxAgeInFrames MaxAgeInSeconds CurrentFrame CurrentTime : Nat)
    (e : FEntry) : Bool :=
  decide (e.LastUsedFrame + MaxAgeInFrames ≤ CurrentFrame) ||
  decide (e.LastUsedTime + MaxAgeInSeconds ≤ CurrentTime)

/-- The `while` loop of `ReleaseStaleEntries`: walk the list from index `i`;
a stale entry is removed by `RemoveAtSwap` (so the slot is re-examined),
otherwise the index advances.  Returns the surviving list and the removed
entries in removal order. -/
def releaseStaleLoop (stale : FEntry → Bool) (l : List FEntry) (i : Nat) :
    List FEntry × List FEntry :=
  if h : i < l.length then
    let e := l.get ⟨i, h⟩
    if stale e then
      let res := releaseStaleLoop stale (removeAtSwap l i) i
      (res.1, e :: res.2)
    else
      releaseStaleLoop stale l (i + 1)
  else
    (l, [])
termination_by l.length - i
decreasing_by
  · simp only [removeAtSwap_length]
    omega
  · omega

/-- `FD3D12ExplicitDescriptorHeapCache::ReleaseStaleEntries`: purge every
free-list entry older than either threshold; purged heaps go to the deferred
deletion queue (`FD3D12DynamicRHI::DeferredDelete`), not released directly. -/
def ReleaseStaleEntries (st : State) (MaxAgeInFrames MaxAgeInSeconds : Nat)
    (CurrentFrame CurrentTime : Nat) : State :=
  let res := releaseStaleLoop (isStale MaxAgeInFrames MaxAgeInSeconds CurrentFrame CurrentTime)
      st.FreeList 0
  { st with FreeList := res.1
          , DeferredDeletions := st.DeferredDeletions ++ res.2.map (·.HeapId) }

/-- The rounded and clamped capacity computed at the top of `AllocateHeap`:
`FMath::Clamp(FMath::RoundUpToPowerOfTwo(NumDescriptors), 0, MaxDescriptors)`
with the sampler or tier-1 view ceiling. -/
def allocateHeapCapacity (t : EHeapType) (NumDescriptors : Nat) : Nat :=
  let MaxDescriptors :=
    if t = EHeapType.Sampler then D3D12_MAX_SHADER_VISIBLE_SAMPLER_HEAP_SIZE
    else D3D12_MAX_SHADER_VISIBLE_DESCRIPTOR_HEAP_SIZE_TIER_1
  min (RoundUpToPowerOfTwo NumDescriptors) MaxDescriptors

/-- The free-list scan of `AllocateHeap`: an entry is usable when it has the
requested type and at least the rounded, clamped capacity. -/
def entryMatches (t : EHeapType) (clamped : Nat) (e : FEntry) : Bool :=
  decide (e.eType = t) && decide (clamped ≤ e.NumDescriptors)

/-- First index whose entry satisfies `p`, together with that entry; mirrors
the `for` loop over `FreeList`. -/
def findEntryIdx (p : FEntry → Bool) : List FEntry → Option (Nat × FEntry)
  | [] => none
  | e :: rest =>
    if p e then some (0, e)
    else (findEntryIdx p rest).map (fun ie => (ie.1 + 1, ie.2))

/-- `FD3D12ExplicitDescriptorHeapCache::AllocateHeap`: clamp the request,
take the first compatible free-list entry (removed by `RemoveAtSwap`), or on
miss purge stale entries (100 frames / 5 seconds) and create a new heap of
the clamped size. -/
def AllocateHeap (st0 : State) (t : EHeapType) (NumDescriptorsIn : Nat)
    (CurrentFrame CurrentTime : Nat) : FEntry × State :=
  let NumDescriptors := allocateHeapCapacity t NumDescriptorsIn
  let st := { st0 with NumAllocatedEntries := st0.NumAllocatedEntries + 1 }
  match findEntryIdx (entryMatches t NumDescriptors) st.FreeList with
  | some ie =>
    (ie.2, { st with FreeList := removeAtSwap st.FreeList ie.1 })
  | none =>
    let st' := ReleaseStaleEntries st 100 5 CurrentFrame CurrentTime
    let newEntry : FEntry :=
      { eType := t, NumDescriptors := NumDescriptors, HeapId := st'.NextHeapId
      , LastUsedFrame := 0, LastUsedTime := 0 }
    (newEntry, { st' with NextHeapId := st'.NextHeapId + 1 })

/-- The destructor `~FD3D12ExplicitDescriptorHeapCache`: `check` fires when
entries are still outstanding; every remaining free-list heap is `Release`d
directly (synchronously).  Returns the assertion-failure flag and the list of
heap handles released. -/
def destruct (st : State) : Bool × List Nat :=
  (decide (st.NumAllocatedEntries ≠ 0), st.FreeList.map (·.HeapId))

end FD3D12ExplicitDescriptorHeapCache

namespace FD3D12ExplicitDescriptorHeap

/-- `FD3D12ExplicitDescriptorHeap::Init`: obtain an entry from the heap cache
(possibly larger than requested) and adopt its actual capacity as
`MaxNumDescriptors`.  The shadow descriptor array is zero-initialized when
exhaustive sampler deduplication is active on a sampler heap; under the
full-compare build it is merely sized (its initial contents are never read
before being written, modelled here as zeros); otherwise it is absent. -/
def Init (cache : FD3D12ExplicitDescriptorHeapCache.State) (InMaxNumDescriptors : Nat)
    (InType : EHeapType) (CurrentFrame CurrentTime : Nat)
    (deduplicateSamplersCVar : Bool) (fullCompare : Bool) :
    State × FD3D12ExplicitDescriptorHeapCache.State :=
  let res := FD3D12ExplicitDescriptorHeapCache.AllocateHeap cache InType InMaxNumDescriptors
      CurrentFrame CurrentTime
  let maxN := res.1.NumDescriptors
  ({ heapType := InType
   , MaxNumDescriptors := maxN
   , NumAllocatedDescriptors := 0
   , Descriptors :=
       if deduplicateSamplersCVar ∧ InType = EHeapType.Sampler then List.replicate maxN 0
       else if fullCompare then List.replicate maxN 0
       else []
   , HeapMemory := List.replicate maxN 0
   , NumWrittenSamplerDescriptors := 0
   , bExhaustiveSamplerDeduplication := deduplicateSamplersCVar }, res.2)

/-- Write `vals` into consecutive slots of `mem` starting at `base`. -/
def writeRange (mem : List Nat) (base : Nat) : List Nat → List Nat
  | [] => mem
  | v :: vs => writeRange (mem.set base v) (base + 1) vs

/-- `FD3D12ExplicitDescriptorHeap::CopyDescriptors`: copy the handles into the
GPU-visible heap; the shadow array is mirrored only when the
`EXPLICIT_DESCRIPTOR_CACHE_FULL_COMPARE` build flag is set. -/
def CopyDescriptors (h : State) (BaseIndex : Nat) (InDescriptors : List Nat)
    (fullCompare : Bool) : State :=
  { h with HeapMemory := writeRange h.HeapMemory BaseIndex InDescriptors
         , Descriptors :=
             if fullCompare then writeRange h.Descriptors BaseIndex InDescriptors
             else h.Descriptors }

/-- `FD3D12ExplicitDescriptorHeap::CompareDescriptors`: compare `InDescriptors`
against the shadow array starting at `BaseIndex`. -/
def CompareDescriptors (h : State) (BaseIndex : Nat) (InDescriptors : List Nat) : Bool :=
  (List.range InDescriptors.length).all
    (fun i => h.Descriptors.getD (BaseIndex + i) 0 == InDescriptors.getD i 0)

end FD3D12ExplicitDescriptorHeap

/-- Modelled from the spec: the per-worker `ReservedViewDescriptors` fast path
of `FD3D12ExplicitDescriptorCache` (a pre-reserved contiguous slice of the
shared view heap whose allocator and sizing policy are not part of this
excerpt).  Per the spec it hands out offsets from its reserved slice and
returns the failure sentinel once the reservation is exhausted. -/
structure ReservedRange where
  BaseIndex : Nat
  Capacity : Nat
  Cursor : Nat
deriving DecidableEq, Repr

/-- Modelled from the spec: bump allocation inside the reserved slice,
failing with `INDEX_NONE` on exhaustion. -/
def ReservedRange.Allocate (r : ReservedRange) (n : Nat) : Int × ReservedRange :=
  if r.Cursor + n ≤ r.Capacity then
    (((r.BaseIndex + r.Cursor : Nat) : Int), { r with Cursor := r.Cursor + n })
  else
    (INDEX_NONE, r)

/-- One association entry of a `TDescriptorHashMap` (`Experimental::TRobinHoodHashMap`):
64-bit key to descriptor-table base index. -/
def mapFind (m : List (Nat × Int)) (k : Nat) : Option Int :=
  (m.find? (fun kv => kv.1 == k)).map (·.2)

/-- Store `v` under `k`, replacing the existing binding if present
(hash-map semantics: keys are unique). -/
def mapSet (m : List (Nat × Int)) (k : Nat) (v : Int) : List (Nat × Int) :=
  match m with
  | [] => [(k, v)]
  | kv :: rest => if kv.1 == k then (k, v) :: rest else kv :: mapSet rest k v

namespace FD3D12ExplicitDescriptorCache

/-- Per-worker state of `FD3D12ExplicitDescriptorCache::WorkerData`: the two
per-heap-type deduplication maps and the reserved view-descriptor range. -/
structure FWorkerData where
  ViewDescriptorTableCache : List (Nat × Int)
  SamplerDescriptorTableCache : List (Nat × Int)
  ReservedViewDescriptors : ReservedRange
deriving DecidableEq, Repr

instance : Inhabited FWorkerData :=
  ⟨{ ViewDescriptorTableCache := []
   , SamplerDescriptorTableCache := []
   , ReservedViewDescriptors := { BaseIndex := 0, Capacity := 0, Cursor := 0 } }⟩

/-- Build-time and hash configuration: the
`EXPLICIT_DESCRIPTOR_CACHE_FULL_COMPARE` flag (`0` in the default build) and
the `FXxHash64::HashBuffer` digest function, modelled as an arbitrary
deterministic function of the hashed word array. -/
structure BuildConfig where
  fullCompare : Bool
  hashBuffer : List Nat → Nat

/-- State of one `FD3D12ExplicitDescriptorCache` session: the two heaps, the
per-worker data and the process globals. -/
structure State where
  ViewHeap : FD3D12ExplicitDescriptorHeap.State
  SamplerHeap : FD3D12ExplicitDescriptorHeap.State
  WorkerData : List FWorkerData
  globals : Globals

/-- The heap selected by descriptor type
(`Type == D3D12_DESCRIPTOR_HEAP_TYPE_CBV_SRV_UAV ? ViewHeap : SamplerHeap`). -/
def State.getHeap (c : State) (t : EHeapType) : FD3D12ExplicitDescriptorHeap.State :=
  if t = EHeapType.CbvSrvUav then c.ViewHeap else c.SamplerHeap

/-- Write back the heap selected by descriptor type. -/
def State.setHeap (c : State) (t : EHeapType) (h : FD3D12ExplicitDescriptorHeap.State) : State :=
  if t = EHeapType.CbvSrvUav then { c with ViewHeap := h } else { c with SamplerHeap := h }

/-- `WorkerData[WorkerIndex]` (callers guarantee the index is in range). -/
def State.workerAt (c : State) (wi : Nat) : FWorkerData :=
  c.WorkerData.getD wi default

/-- Replace `WorkerData[WorkerIndex]`. -/
def State.setWorker (c : State) (wi : Nat) (w : FWorkerData) : State :=
  { c with WorkerData := c.WorkerData.set wi w }

/-- The per-worker deduplication map selected by descriptor type. -/
def FWorkerData.getMap (w : FWorkerData) (t : EHeapType) : List (Nat × Int) :=
  if t = EHeapType.CbvSrvUav then w.ViewDescriptorTableCache else w.SamplerDescriptorTableCache

/-- Write back the per-worker deduplication map selected by descriptor type. -/
def FWorkerData.setMap (w : FWorkerData) (t : EHeapType) (m : List (Nat × Int)) : FWorkerData :=
  if t = EHeapType.CbvSrvUav then { w with ViewDescriptorTableCache := m }
  else { w with SamplerDescriptorTableCache := m }

/-- Replace the deduplication map of worker `wi` for heap type `t`. -/
def State.setWorkerMap (c : State) (wi : Nat) (t : EHeapType) (m : List (Nat × Int)) : State :=
  c.setWorker wi ((c.workerAt wi).setMap t m)

/-- `FD3D12ExplicitDescriptorCache::Allocate`: view-type requests first try
the worker's reserved range and fall back to the shared heap's atomic bump
allocator; sampler requests go to the shared heap directly.  On success the
descriptors are copied in and, for samplers under exhaustive deduplication,
the confirmed-written counter advances. -/
def Allocate (cfg : BuildConfig) (c : State) (Descriptors : List Nat)
    (t : EHeapType) (WorkerIndex : Nat) : Int × State :=
  let n := Descriptors.length
  let step1 :=
    if t = EHeapType.CbvSrvUav then
      let w := c.workerAt WorkerIndex
      let res := w.ReservedViewDescriptors.Allocate n
      let c' := c.setWorker WorkerIndex { w with ReservedViewDescriptors := res.2 }
      if res.1 = INDEX_NONE then
        let ares := FD3D12ExplicitDescriptorHeap.Allocate (c'.getHeap t) c'.globals n
        (ares.1, ({ c'.setHeap t ares.2.1 with globals := ares.2.2 } : State))
      else (res.1, c')
    else
      let ares := FD3D12ExplicitDescriptorHeap.Allocate (c.getHeap t) c.globals n
      (ares.1, ({ c.setHeap t ares.2.1 with globals := ares.2.2 } : State))
  let base := step1.1
  let c1 := step1.2
  if base = INDEX_NONE then (INDEX_NONE, c1)
  else
    let heap1 := c1.getHeap t
    let heap2 := FD3D12ExplicitDescriptorHeap.CopyDescriptors heap1 base.toNat Descriptors cfg.fullCompare
    let heap3 :=
      if heap2.bExhaustiveSamplerDeduplication ∧ t = EHeapType.Sampler then
        { heap2 with NumWrittenSamplerDescriptors := heap2.NumWrittenSamplerDescriptors + n }
      else heap2
    (base, c1.setHeap t heap3)

/-- `FD3D12ExplicitDescriptorCache::AllocateDeduplicated`: fingerprint the
request (`XxHash64(versions) ^ XxHash64(descriptors)`), return a cached offset
on a worker-map hit (validated against the shadow array only under the
full-compare build), otherwise — for sampler tables with exhaustive
deduplication and more than one worker — scan the already-written portion of
the shared sampler heap for a byte-identical run, and finally fall back to a
fresh allocation, recording the resulting offset in the worker's map. -/
def AllocateDeduplicated (cfg : BuildConfig) (c : State)
    (DescriptorVersions Descriptors : List Nat) (t : EHeapType) (WorkerIndex : Nat) :
    Int × State :=
  let n := Descriptors.length
  let heap := c.getHeap t
  let w := c.workerAt WorkerIndex
  let map := w.getMap t
  let Key := Nat.xor (cfg.hashBuffer DescriptorVersions) (cfg.hashBuffer Descriptors)
  let existing := mapFind map Key
  let cur : Int := existing.getD INDEX_NONE
  let map0 := if existing.isSome then map else (Key, INDEX_NONE) :: map
  let c0 := c.setWorkerMap WorkerIndex t map0
  if cur ≠ INDEX_NONE ∧
      (cfg.fullCompare = false ∨
        FD3D12ExplicitDescriptorHeap.CompareDescriptors heap cur.toNat Descriptors = true) then
    (cur, c0)
  else
    let found :=
      if heap.bExhaustiveSamplerDeduplication ∧ t = EHeapType.Sampler ∧ 1 < c.WorkerData.length then
        (List.range (heap.NumWrittenSamplerDescriptors - n)).find?
          (fun s => FD3D12ExplicitDescriptorHeap.CompareDescriptors heap s Descriptors)
      else none
    match found with
    | some s =>
      (((s : Nat) : Int), c0.setWorkerMap WorkerIndex t (mapSet map0 Key ((s : Nat) : Int)))
    | none =>
      let ares := Allocate cfg c0 Descriptors t WorkerIndex
      let c1 := ares.2
      (ares.1, c1.setWorkerMap WorkerIndex t (mapSet ((c1.workerAt WorkerIndex).getMap t) Key ares.1))

/-- The heap-sizing decisions of `FD3D12ExplicitDescriptorCache::Init`:
`some size` means the corresponding heap's `Init` is called with that size,
`none` means the heap is not initialized at all.  The view heap is requested
at `NumConstantDescriptors + NumViewDescriptors` (dropping the view part when
views are bindless) and only when that total is nonzero; the sampler heap is
requested at `NumSamplerDescriptors` unless samplers are bindless. -/
def InitSizes (NumConstantDescriptors NumViewDescriptors NumSamplerDescriptors : Nat)
    (bBindlessViews bBindlessSamplers : Bool) : Option Nat × Option Nat :=
  let TotalViewDescriptors :=
    NumConstantDescriptors + (if bBindlessViews then 0 else NumViewDescriptors)
  ( if TotalViewDescriptors ≠ 0 then some TotalViewDescriptors else none
  , if bBindlessSamplers then none else some NumSamplerDescriptors )

end FD3D12ExplicitDescriptorCache

/-- A concrete default-build configuration (full compare compiled out) with a
simple deterministic stand-in digest, used to evaluate concrete scenarios. -/
def sampleCfgDefault : FD3D12ExplicitDescriptorCache.BuildConfig :=
  { fullCompare := false, hashBuffer := fun l => l.sum }

/-- The same configuration with `EXPLICIT_DESCRIPTOR_CACHE_FULL_COMPARE`
compiled in, so `CopyDescriptors` maintains the shadow array. -/
def sampleCfgFullCompare : FD3D12ExplicitDescriptorCache.BuildConfig :=
  { fullCompare := true, hashBuffer := fun l => l.sum }

/-- A two-worker session with a fresh 16-entry view heap and a fresh 8-entry
sampler heap, exhaustive sampler deduplication enabled. -/
def twoWorkerSession : FD3D12ExplicitDescriptorCache.State :=
  { ViewHeap := FD3D12ExplicitDescriptorHeap.fresh EHeapType.CbvSrvUav 16 true
  , SamplerHeap := FD3D12ExplicitDescriptorHeap.fresh EHeapType.Sampler 8 true
  , WorkerData := [default, default]
  , globals := Globals.default }

/-- State after worker 0 has allocated the sampler table `[10]` (offset 0). -/
def samplerScenario1 : FD3D12ExplicitDescriptorCache.State :=
  (FD3D12ExplicitDescriptorCache.AllocateDeduplicated sampleCfgDefault twoWorkerSession
    [1] [10] EHeapType.Sampler 0).2

/-- State after worker 0 has additionally allocated `[20]` (offset 1). -/
def samplerScenario2 : FD3D12ExplicitDescriptorCache.State :=
  (FD3D12ExplicitDescriptorCache.AllocateDeduplicated sampleCfgDefault samplerScenario1
    [2] [20] EHeapType.Sampler 0).2

/-- State after worker 0 has additionally allocated `[30]` (offset 2). -/
def samplerScenario3 : FD3D12ExplicitDescriptorCache.State :=
  (FD3D12ExplicitDescriptorCache.AllocateDeduplicated sampleCfgDefault samplerScenario2
    [3] [30] EHeapType.Sampler 0).2

/-- Full-compare build: state after worker 0 has allocated the two-descriptor
sampler table `[10, 11]` at offset 0 (written count 2). -/
def samplerScenarioFull1 : FD3D12ExplicitDescriptorCache.State :=
  (FD3D12ExplicitDescriptorCache.AllocateDeduplicated sampleCfgFullCompare twoWorkerSession
    [1] [10, 11] EHeapType.Sampler 0).2

/-! ## Helper lemmas -/

theorem roundUpPow2Go_pow (v : Nat) :
    ∀ fuel k, ∃ j, roundUpPow2Go v fuel (2 ^ k) = 2 ^ j := by
  intro fuel
  induction fuel with
  | zero => intro k; exact ⟨k, rfl⟩
  | succ f ih =>
    intro k
    simp only [roundUpPow2Go]
    split
    · exact ⟨k, rfl⟩
    · have h2 : 2 * 2 ^ k = 2 ^ (k + 1) := by ring
      rw [h2]
      exact ih (k + 1)

theorem roundUpPow2Go_ge (v : Nat) :
    ∀ fuel p, v ≤ p * 2 ^ fuel → v ≤ roundUpPow2Go v fuel p := by
  intro fuel
  induction fuel with
  | zero => intro p hp; simpa [roundUpPow2Go] using hp
  | succ f ih =>
    intro p hp
    simp only [roundUpPow2Go]
    split
    · assumption
    · apply ih
      have h2 : p * 2 ^ (f + 1) = 2 * p * 2 ^ f := by ring
      rw [h2] at hp
      exact hp

theorem roundUpPow2Go_lt (v : Nat) :
    ∀ fuel p, p < 2 * v → roundUpPow2Go v fuel p < 2 * v := by
  intro fuel
  induction fuel with
  | zero => intro p hp; simpa [roundUpPow2Go] using hp
  | succ f ih =>
    intro p hp
    simp only [roundUpPow2Go]
    split
    · assumption
    · rename_i hvp
      exact ih (2 * p) (by omega)

theorem RoundUpToPowerOfTwo_isPow2 (v : Nat) :
    ∃ j, RoundUpToPowerOfTwo v = 2 ^ j := by
  have h := roundUpPow2Go_pow v 32 0
  simpa [RoundUpToPowerOfTwo] using h

theorem RoundUpToPowerOfTwo_ge (v : Nat) (hv : v ≤ 2 ^ 32) :
    v ≤ RoundUpToPowerOfTwo v := by
  apply roundUpPow2Go_ge
  simpa using hv

theorem RoundUpToPowerOfTwo_lt (v : Nat) (hv : 1 ≤ v) :
    RoundUpToPowerOfTwo v < 2 * v := by
  apply roundUpPow2Go_lt
  omega

namespace FD3D12ExplicitDescriptorHeap

theorem Allocate_heap (h : State) (g : Globals) (n : Nat) :
    (Allocate h g n).2.1 =
      { h with NumAllocatedDescriptors := h.NumAllocatedDescriptors + n } := rfl

theorem Allocate_result (h : State) (g : Globals) (n : Nat) :
    (Allocate h g n).1 =
      if h.MaxNumDescriptors < h.NumAllocatedDescriptors + n then -1
      else ((h.NumAllocatedDescriptors : Nat) : Int) := by
  unfold Allocate
  dsimp only
  split
  · split
    · rfl
    · split <;> rfl
  · rfl

theorem runAllocate_heap :
    ∀ (ns : List Nat) (h : State) (g : Globals),
      (runAllocate h g ns).1 =
        { h with NumAllocatedDescriptors := h.NumAllocatedDescriptors + ns.sum } := by
  intro ns
  induction ns with
  | nil => intro h g; rfl
  | cons n rest ih =>
    intro h g
    simp only [runAllocate]
    rw [ih]
    simp [Allocate_heap, Nat.add_assoc]

theorem runAllocate_length :
    ∀ (ns : List Nat) (h : State) (g : Globals),
      (runAllocate h g ns).2.2.length = ns.length := by
  intro ns
  induction ns with
  | nil => intro h g; rfl
  | cons n rest ih =>
    intro h g
    simp only [runAllocate, List.length_cons]
    rw [ih]

theorem runAllocate_getD :
    ∀ (ns : List Nat) (h : State) (g : Globals) (i : Nat), i < ns.length →
      (runAllocate h g ns).2.2.getD i 0 =
        (if h.MaxNumDescriptors < h.NumAllocatedDescriptors + (ns.take (i + 1)).sum then -1
         else ((h.NumAllocatedDescriptors + (ns.take i).sum : Nat) : Int)) := by
  intro ns
  induction ns with
  | nil => intro h g i hi; simp at hi
  | cons n rest ih =>
    intro h g i hi
    cases i with
    | zero =>
      simp only [runAllocate, List.getD_cons_zero]
      rw [Allocate_result]
      simp
    | succ i' =>
      simp only [runAllocate, List.getD_cons_succ]
      rw [ih _ _ i' (by simpa using hi)]
      simp [Allocate_heap, List.take_succ_cons, Nat.add_assoc]

theorem take_sum_mono (ns : List Nat) {i j : Nat} (hij : i ≤ j) :
    (ns.take i).sum ≤ (ns.take j).sum := by
  have h1 : ns.take i = (ns.take j).take i := by
    rw [List.take_take, min_eq_left hij]
  rw [h1]
  conv_rhs => rw [← List.take_append_drop i (ns.take j)]
  rw [List.sum_append]
  omega

theorem take_succ_sum (ns : List Nat) {i : Nat} (hi : i < ns.length) :
    (ns.take (i + 1)).sum = (ns.take i).sum + ns.getD i 0 := by
  rw [List.take_succ, List.sum_append]
  have h1 : ns[i]? = some ns[i] := List.getElem?_eq_getElem hi
  have h2 : ns.getD i 0 = ns[i] := by
    simp [List.getD_eq_getElem?_getD, h1]
  rw [h1, h2]
  simp

theorem runAllocate_acceptedSum :
    ∀ (ns : List Nat) (h : State) (g : Globals),
      (h.NumAllocatedDescriptors ≤ h.MaxNumDescriptors →
        h.NumAllocatedDescriptors +
          (∑ i ∈ Finset.range ns.length,
            if (runAllocate h g ns).2.2.getD i 0 ≠ -1 then ns.getD i 0 else 0) ≤
          h.MaxNumDescriptors) ∧
      (h.MaxNumDescriptors < h.NumAllocatedDescriptors →
        (∑ i ∈ Finset.range ns.length,
          if (runAllocate h g ns).2.2.getD i 0 ≠ -1 then ns.getD i 0 else 0) = 0) := by
  intro ns
  induction ns with
  | nil => intro h g; simp
  | cons n rest ih =>
    intro h g
    simp only [runAllocate, List.length_cons]
    rw [Finset.sum_range_succ']
    simp only [List.getD_cons_succ, List.getD_cons_zero]
    simp only [Allocate_result, Allocate_heap]
    by_cases hov : h.MaxNumDescriptors < h.NumAllocatedDescriptors + n
    · -- this call fails; the cursor still advances past capacity
      have hz := (ih { h with NumAllocatedDescriptors := h.NumAllocatedDescriptors + n }
        (Allocate h g n).2.2).2 (by simpa using hov)
      simp only [if_pos hov, hz]
      simp
    · -- this call succeeds
      have hnotneg : ((h.NumAllocatedDescriptors : Int)) ≠ -1 := by
        omega
      have h1 := (ih { h with NumAllocatedDescriptors := h.NumAllocatedDescriptors + n }
        (Allocate h g n).2.2).1 (by simp; omega)
      simp only [if_neg hov, ne_eq, hnotneg, not_false_eq_true, if_pos]
      simp only [not_false_eq_true, ne_eq] at h1 ⊢
      constructor
      · intro _
        omega
      · intro hlt
        omega

theorem Allocate_globals (h : State) (g : Globals) (n : Nat) :
    (Allocate h g n).2.2 =
      if h.MaxNumDescriptors < h.NumAllocatedDescriptors + n then
        (if h.heapType = EHeapType.Sampler then
           { g with fatalCount := g.fatalCount + 1 }
         else if g.viewDescriptorHeapSize ≤ h.MaxNumDescriptors then
           { g with overflowReported := true
                  , errorLogCount :=
                      if g.overflowReported then g.errorLogCount
                      else g.errorLogCount + 1 }
         else g)
      else g := by
  unfold Allocate
  dsimp only
  split
  · split
    · rfl
    · split <;> rfl
  · rfl

theorem Allocate_globals_flag_true (h : State) (g : Globals) (n : Nat)
    (hg : g.overflowReported = true) :
    (Allocate h g n).2.2.errorLogCount = g.errorLogCount ∧
    (Allocate h g n).2.2.overflowReported = true := by
  rw [Allocate_globals]
  split
  · split
    · simp [hg]
    · split <;> simp [hg]
  · simp [hg]

theorem Allocate_globals_flag_false (h : State) (g : Globals) (n : Nat)
    (hg : g.overflowReported = false) :
    ((Allocate h g n).2.2.overflowReported = false ∧
      (Allocate h g n).2.2.errorLogCount = g.errorLogCount) ∨
    ((Allocate h g n).2.2.overflowReported = true ∧
      (Allocate h g n).2.2.errorLogCount = g.errorLogCount + 1) := by
  rw [Allocate_globals]
  split
  · split
    · exact Or.inl (by simp [hg])
    · split
      · exact Or.inr (by simp [hg])
      · exact Or.inl (by simp [hg])
  · exact Or.inl (by simp [hg])

theorem runAllocate_log_flag_true :
    ∀ (ns : List Nat) (h : State) (g : Globals), g.overflowReported = true →
      (runAllocate h g ns).2.1.errorLogCount = g.errorLogCount ∧
      (runAllocate h g ns).2.1.overflowReported = true := by
  intro ns
  induction ns with
  | nil => intro h g hg; exact ⟨rfl, hg⟩
  | cons n rest ih =>
    intro h g hg
    simp only [runAllocate]
    have h1 := Allocate_globals_flag_true h g n hg
    have h2 := ih (Allocate h g n).2.1 (Allocate h g n).2.2 h1.2
    exact ⟨h2.1.trans h1.1, h2.2⟩

theorem runAllocate_log_once :
    ∀ (ns : List Nat) (h : State) (g : Globals), g.overflowReported = false →
      (runAllocate h g ns).2.1.errorLogCount ≤ g.errorLogCount + 1 := by
  intro ns
  induction ns with
  | nil => intro h g _; simp [runAllocate]
  | cons n rest ih =>
    intro h g hg
    simp only [runAllocate]
    rcases Allocate_globals_flag_false h g n hg with ⟨hf, hc⟩ | ⟨hf, hc⟩
    · have := ih (Allocate h g n).2.1 (Allocate h g n).2.2 hf
      omega
    · have := runAllocate_log_flag_true rest (Allocate h g n).2.1 (Allocate h g n).2.2 hf
      omega

end FD3D12ExplicitDescriptorHeap

theorem list_getD_set_eq (l : List α) {i : Nat} (x d : α) (h : i < l.length) :
    (l.set i x).getD i d = x := by
  rw [List.getD_eq_getElem?_getD, List.getElem?_set_eq_of_lt x h]
  rfl

theorem list_getD_set_ne (l : List α) {i j : Nat} (x d : α) (h : i ≠ j) :
    (l.set i x).getD j d = l.getD j d := by
  rw [List.getD_eq_getElem?_getD, List.getElem?_set_ne h, ← List.getD_eq_getElem?_getD]

theorem list_set_getD_self [Inhabited α] (l : List α) {i : Nat} (h : i < l.length) :
    l.set i (l.getD i default) = l := by
  apply List.ext_getElem?
  intro n
  by_cases hn : i = n
  · subst hn
    rw [List.getElem?_set_eq_of_lt _ h, List.getD_eq_getElem?_getD,
      List.getElem?_eq_getElem h]
    rfl
  · rw [List.getElem?_set_ne hn]

theorem mapFind_mapSet (m : List (Nat × Int)) (k : Nat) (v : Int) :
    mapFind (mapSet m k v) k = some v := by
  induction m with
  | nil => simp [mapSet, mapFind]
  | cons kv rest ih =>
    simp only [mapSet]
    split
    · simp [mapFind]
    · rename_i hne
      simp only [mapFind] at ih ⊢
      rw [List.find?_cons_of_neg]
      · exact ih
      · simpa using hne

namespace FD3D12ExplicitDescriptorCache

theorem getMap_setMap (w : FWorkerData) (t : EHeapType) (m : List (Nat × Int)) :
    (w.setMap t m).getMap t = m := by
  cases t <;> simp [FWorkerData.getMap, FWorkerData.setMap]

theorem setMap_getMap_self (w : FWorkerData) (t : EHeapType) :
    w.setMap t (w.getMap t) = w := by
  cases t <;> rfl

theorem getMap_setReserved (w : FWorkerData) (r : ReservedRange) (u : EHeapType) :
    ({ w with ReservedViewDescriptors := r } : FWorkerData).getMap u = w.getMap u := by
  cases u <;> rfl

theorem WorkerData_setHeap (c : State) (t : EHeapType) (h : FD3D12ExplicitDescriptorHeap.State) :
    (c.setHeap t h).WorkerData = c.WorkerData := by
  unfold State.setHeap
  split <;> rfl

theorem length_setWorkerMap (c : State) (wi : Nat) (t : EHeapType) (m : List (Nat × Int)) :
    (c.setWorkerMap wi t m).WorkerData.length = c.WorkerData.length := by
  simp [State.setWorkerMap, State.setWorker]

theorem workerAt_setWorkerMap (c : State) {wi : Nat} (t : EHeapType) (m : List (Nat × Int))
    (h : wi < c.WorkerData.length) :
    (c.setWorkerMap wi t m).workerAt wi = (c.workerAt wi).setMap t m := by
  simp only [State.setWorkerMap, State.setWorker, State.workerAt]
  exact list_getD_set_eq _ _ _ h

theorem setWorkerMap_self (c : State) {wi : Nat} (t : EHeapType)
    (h : wi < c.WorkerData.length) :
    c.setWorkerMap wi t ((c.workerAt wi).getMap t) = c := by
  simp only [State.setWorkerMap, State.setWorker, State.workerAt]
  rw [setMap_getMap_self, list_set_getD_self _ h]

theorem Allocate_WorkerData (cfg : BuildConfig) (c : State) (descs : List Nat)
    (t : EHeapType) (wi : Nat) :
    (Allocate cfg c descs t wi).2.WorkerData = c.WorkerData ∨
    ∃ r, (Allocate cfg c descs t wi).2.WorkerData =
      c.WorkerData.set wi { c.workerAt wi with ReservedViewDescriptors := r } := by
  unfold Allocate
  dsimp only
  split
  · -- view type: the reserved range of worker wi may be updated
    split
    · split
      · exact Or.inr ⟨((c.workerAt wi).ReservedViewDescriptors.Allocate descs.length).2,
          by simp [WorkerData_setHeap, State.setWorker]⟩
      · exact Or.inr ⟨((c.workerAt wi).ReservedViewDescriptors.Allocate descs.length).2,
          by simp [WorkerData_setHeap, State.setWorker]⟩
    · split
      · exact Or.inr ⟨((c.workerAt wi).ReservedViewDescriptors.Allocate descs.length).2,
          by simp [WorkerData_setHeap, State.setWorker]⟩
      · exact Or.inr ⟨((c.workerAt wi).ReservedViewDescriptors.Allocate descs.length).2,
          by simp [WorkerData_setHeap, State.setWorker]⟩
  · -- sampler type: worker data untouched
    split
    · exact Or.inl (by simp [WorkerData_setHeap])
    · exact Or.inl (by simp [WorkerData_setHeap])

theorem Allocate_WorkerData_length (cfg : BuildConfig) (c : State) (descs : List Nat)
    (t : EHeapType) (wi : Nat) :
    (Allocate cfg c descs t wi).2.WorkerData.length = c.WorkerData.length := by
  rcases Allocate_WorkerData cfg c descs t wi with h | ⟨r, h⟩
  · rw [h]
  · rw [h, List.length_set]

theorem Allocate_workerMap (cfg : BuildConfig) (c : State) (descs : List Nat)
    (t : EHeapType) (wi wj : Nat) (u : EHeapType) :
    ((Allocate cfg c descs t wi).2.workerAt wj).getMap u = (c.workerAt wj).getMap u := by
  rcases Allocate_WorkerData cfg c descs t wi with h | ⟨r, h⟩
  · simp [State.workerAt, h]
  · simp only [State.workerAt, h]
    by_cases hij : wi = wj
    · subst hij
      by_cases hlen : wi < c.WorkerData.length
      · rw [list_getD_set_eq _ _ _ hlen, getMap_setReserved]
      · rw [List.set_eq_of_length_le (by omega)]
    · rw [list_getD_set_ne _ _ _ hij]

end FD3D12ExplicitDescriptorCache

namespace FD3D12ExplicitDescriptorHeapCache

theorem removeAtSwap_perm (l : List α) (i : Nat) (h : i < l.length) :
    l.Perm (l[i] :: removeAtSwap l i) := by
  cases l with
  | nil => simp at h
  | cons a as =>
    have hne : (a :: as) ≠ [] := by simp
    by_cases hlast : i + 1 = (a :: as).length
    · have hidx : (a :: as)[i] = (a :: as).getLast hne := by
        rw [List.getLast_eq_getElem]
        congr 1
        omega
      simp only [removeAtSwap]
      rw [if_pos hlast, hidx]
      conv_lhs => rw [← List.dropLast_append_getLast hne]
      exact List.perm_append_singleton _ _
    · have hlt : i < (a :: as).dropLast.length := by
        rw [List.length_dropLast]
        omega
      simp only [removeAtSwap]
      rw [if_neg hlast]
      have hgl : (a :: as).getLastD a = (a :: as).getLast hne := by
        rw [List.getLastD_eq_getLast?, List.getLast?_eq_getLast _ hne]
        rfl
      rw [hgl]
      have hsplit : (a :: as).dropLast ++ [(a :: as).getLast hne] = (a :: as) :=
        List.dropLast_append_getLast hne
      have hset : (a :: as).dropLast.set i ((a :: as).getLast hne) =
          (a :: as).dropLast.take i ++ (a :: as).getLast hne :: (a :: as).dropLast.drop (i + 1) := by
        rw [List.set_eq_take_append_cons_drop, if_pos hlt]
      have hgeti : (a :: as)[i] = (a :: as).dropLast[i] :=
        (List.getElem_dropLast _ i hlt).symm
      have hdlsplit : (a :: as).dropLast =
          (a :: as).dropLast.take i ++ (a :: as).dropLast[i] :: (a :: as).dropLast.drop (i + 1) := by
        conv_lhs => rw [← List.take_append_drop i (a :: as).dropLast]
        rw [List.drop_eq_getElem_cons hlt]
      rw [hset, hgeti]
      have heq : (a :: as) =
          (a :: as).dropLast.take i ++ (a :: as).dropLast[i] ::
            ((a :: as).dropLast.drop (i + 1) ++ [(a :: as).getLast hne]) := by
        conv_lhs => rw [← hsplit, hdlsplit]
        rw [List.append_assoc, List.cons_append]
      have hperm1 := @List.perm_middle _ ((a :: as).dropLast[i])
        ((a :: as).dropLast.take i)
        ((a :: as).dropLast.drop (i + 1) ++ [(a :: as).getLast hne])
      rw [← heq] at hperm1
      refine hperm1.trans (List.Perm.cons _ ?_)
      exact List.Perm.append_left _ (List.perm_append_singleton _ _)

theorem removeAtSwap_getElem?_lt (l : List α) {i j : Nat} (h : i < l.length) (hj : j < i) :
    (removeAtSwap l i)[j]? = l[j]? := by
  cases l with
  | nil => simp at h
  | cons a as =>
    have hjdl : j < (a :: as).dropLast.length := by
      rw [List.length_dropLast]
      by_cases hlast : i + 1 = (a :: as).length <;> omega
    have hdl : (a :: as).dropLast[j]? = (a :: as)[j]? := by
      rw [List.getElem?_eq_getElem hjdl, List.getElem_dropLast,
        List.getElem?_eq_getElem (by omega)]
    simp only [removeAtSwap]
    split
    · exact hdl
    · rw [List.getElem?_set_ne (by omega)]
      exact hdl

theorem findEntryIdx_none_iff (p : FEntry → Bool) :
    ∀ l : List FEntry, findEntryIdx p l = none ↔ ∀ e ∈ l, p e = false := by
  intro l
  induction l with
  | nil => simp [findEntryIdx]
  | cons e rest ih =>
    simp only [findEntryIdx]
    split
    · rename_i hp
      simp [hp]
    · rename_i hp
      simp only [Option.map_eq_none', ih]
      simp only [Bool.not_eq_true] at hp
      simp [hp]

theorem findEntryIdx_isSome_iff (p : FEntry → Bool) (l : List FEntry) :
    (findEntryIdx p l).isSome = true ↔ ∃ e ∈ l, p e = true := by
  rw [Option.isSome_iff_ne_none, ne_eq, findEntryIdx_none_iff]
  push_neg
  constructor
  · rintro ⟨e, he, hp⟩
    exact ⟨e, he, by simpa using hp⟩
  · rintro ⟨e, he, hp⟩
    exact ⟨e, he, by simp [hp]⟩

theorem findEntryIdx_some_spec (p : FEntry → Bool) :
    ∀ (l : List FEntry) (i : Nat) (e : FEntry), findEntryIdx p l = some (i, e) →
      ∃ hi : i < l.length, l[i] = e ∧ p e = true ∧
        ∀ j (hj : j < l.length), j < i → p (l[j]) = false := by
  intro l
  induction l with
  | nil => intro i e he; simp [findEntryIdx] at he
  | cons x xs ih =>
    intro i e he
    simp only [findEntryIdx] at he
    split at he
    · rename_i hp
      simp only [Option.some_inj, Prod.mk.injEq] at he
      obtain ⟨h0, hx⟩ := he
      subst h0
      subst hx
      refine ⟨by simp, by simp, hp, ?_⟩
      intro j hj hji
      omega
    · rename_i hp
      simp only [Bool.not_eq_true] at hp
      cases hfind : findEntryIdx p xs with
      | none =>
        rw [hfind] at he
        simp at he
      | some ie =>
        rw [hfind] at he
        simp only [Option.map_some', Option.some_inj, Prod.mk.injEq] at he
        obtain ⟨hi1, he2⟩ := he
        subst hi1
        subst he2
        obtain ⟨hlt, hget, hpe, hmin⟩ := ih ie.1 ie.2 (by rw [hfind])
        refine ⟨by simp; omega, by simpa using hget, hpe, ?_⟩
        intro j hj hji
        cases j with
        | zero => simpa using hp
        | succ j' =>
          simp only [List.getElem_cons_succ]
          exact hmin j' (by simpa using hj) (by omega)

theorem releaseStaleLoop_spec (stale : FEntry → Bool) (l : List FEntry) (i : Nat) :
    (∀ j (hj : j < l.length), j < i → stale l[j] = false) →
    (∀ e ∈ (releaseStaleLoop stale l i).1, stale e = false) ∧
    (∀ e ∈ (releaseStaleLoop stale l i).2, stale e = true) ∧
    l.Perm ((releaseStaleLoop stale l i).1 ++ (releaseStaleLoop stale l i).2) := by
  induction l, i using releaseStaleLoop.induct stale with
  | case1 l i h e hstale ih =>
    intro hpre
    have he : e = l.get ⟨i, h⟩ := rfl
    rw [he] at hstale
    have heq : releaseStaleLoop stale l i =
        ((releaseStaleLoop stale (removeAtSwap l i) i).1,
         l.get ⟨i, h⟩ :: (releaseStaleLoop stale (removeAtSwap l i) i).2) := by
      rw [releaseStaleLoop, dif_pos h]
      simp only [List.get_eq_getElem] at hstale
      simp [hstale]
    have hpre' : ∀ j (hj : j < (removeAtSwap l i).length), j < i →
        stale (removeAtSwap l i)[j] = false := by
      intro j hj hji
      have hjl : j < l.length := by
        have hlen := removeAtSwap_length l i
        omega
      have hq := removeAtSwap_getElem?_lt l h hji
      rw [List.getElem?_eq_getElem hj, List.getElem?_eq_getElem hjl] at hq
      have hg : (removeAtSwap l i)[j] = l[j] := by simpa using hq
      rw [hg]
      exact hpre j hjl (by omega)
    obtain ⟨ih1, ih2, ih3⟩ := ih hpre'
    rw [heq]
    refine ⟨fun e' he' => ih1 e' he', ?_, ?_⟩
    · intro e' he'
      rcases List.mem_cons.mp he' with hhead | hmem
      · subst hhead
        simpa [List.get_eq_getElem] using hstale
      · exact ih2 e' hmem
    · have hp1 : l.Perm (l[i] :: removeAtSwap l i) := removeAtSwap_perm l i h
      have hp3 : l.Perm (l[i] ::
          ((releaseStaleLoop stale (removeAtSwap l i) i).1 ++
           (releaseStaleLoop stale (removeAtSwap l i) i).2)) :=
        hp1.trans (List.Perm.cons _ ih3)
      refine hp3.trans ?_
      have hmid := (@List.perm_middle _ l[i]
        (releaseStaleLoop stale (removeAtSwap l i) i).1
        (releaseStaleLoop stale (removeAtSwap l i) i).2).symm
      simpa [List.get_eq_getElem] using hmid
  | case2 l i h e hstale ih =>
    intro hpre
    have he : e = l.get ⟨i, h⟩ := rfl
    rw [he] at hstale
    have hst : stale (l.get ⟨i, h⟩) = false := by simpa using hstale
    have heq : releaseStaleLoop stale l i = releaseStaleLoop stale l (i + 1) := by
      rw [releaseStaleLoop, dif_pos h]
      simp only [List.get_eq_getElem] at hst
      simp [hst]
    have hpre' : ∀ j (hj : j < l.length), j < i + 1 → stale l[j] = false := by
      intro j hj hji
      rcases Nat.lt_or_ge j i with hj2 | hj2
      · exact hpre j hj hj2
      · have hji2 : j = i := by omega
        subst hji2
        simpa [List.get_eq_getElem] using hst
    rw [heq]
    exact ih hpre'
  | case3 l i h =>
    intro hpre
    have heq : releaseStaleLoop stale l i = (l, []) := by
      rw [releaseStaleLoop, dif_neg h]
    rw [heq]
    refine ⟨?_, by simp, by simp⟩
    intro e' he'
    obtain ⟨n, hn, rfl⟩ := List.mem_iff_getElem.mp he'
    have hn' : n < l.length := by simpa using hn
    exact hpre n hn' (by omega)

theorem releaseStaleLoop_filter (stale : FEntry → Bool) (l : List FEntry) :
    (releaseStaleLoop stale l 0).1.Perm (l.filter (fun e => !stale e)) ∧
    (releaseStaleLoop stale l 0).2.Perm (l.filter stale) := by
  obtain ⟨h1, h2, h3⟩ := releaseStaleLoop_spec stale l 0
    (fun j hj hji => absurd hji (Nat.not_lt_zero j))
  constructor
  · have hfa := List.Perm.filter (fun e => !stale e) h3
    rw [List.filter_append] at hfa
    have e1 : (releaseStaleLoop stale l 0).1.filter (fun e => !stale e) =
        (releaseStaleLoop stale l 0).1 :=
      List.filter_eq_self.mpr (fun a ha => by simp [h1 a ha])
    have e2 : (releaseStaleLoop stale l 0).2.filter (fun e => !stale e) = [] :=
      List.filter_eq_nil_iff.mpr (fun a ha => by simp [h2 a ha])
    rw [e1, e2, List.append_nil] at hfa
    exact hfa.symm
  · have hfa := List.Perm.filter stale h3
    rw [List.filter_append] at hfa
    have e1 : (releaseStaleLoop stale l 0).1.filter stale = [] :=
      List.filter_eq_nil_iff.mpr (fun a ha => by simp [h1 a ha])
    have e2 : (releaseStaleLoop stale l 0).2.filter stale =
        (releaseStaleLoop stale l 0).2 :=
      List.filter_eq_self.mpr (fun a ha => h2 a ha)
    rw [e1, e2, List.nil_append] at hfa
    exact hfa.symm

theorem AllocateHeap_hit (st : State) (t : EHeapType) (n cf ct : Nat) (i : Nat) (e : FEntry)
    (hfind : findEntryIdx (entryMatches t (allocateHeapCapacity t n)) st.FreeList =
      some (i, e)) :
    AllocateHeap st t n cf ct =
      (e, { st with
          NumAllocatedEntries := st.NumAllocatedEntries + 1,
          FreeList := removeAtSwap st.FreeList i }) := by
  unfold AllocateHeap
  dsimp only
  rw [hfind]

theorem AllocateHeap_miss (st : State) (t : EHeapType) (n cf ct : Nat)
    (hmiss : findEntryIdx (entryMatches t (allocateHeapCapacity t n)) st.FreeList = none) :
    AllocateHeap st t n cf ct =
      ({ eType := t, NumDescriptors := allocateHeapCapacity t n, HeapId := st.NextHeapId
       , LastUsedFrame := 0, LastUsedTime := 0 },
       { FreeList := (releaseStaleLoop (isStale 100 5 cf ct) st.FreeList 0).1
       , NumAllocatedEntries := st.NumAllocatedEntries + 1
       , DeferredDeletions := st.DeferredDeletions ++
           (releaseStaleLoop (isStale 100 5 cf ct) st.FreeList 0).2.map (·.HeapId)
       , NextHeapId := st.NextHeapId + 1 }) := by
  unfold AllocateHeap ReleaseStaleEntries
  dsimp only
  rw [hmiss]

end FD3D12ExplicitDescriptorHeapCache

namespace FD3D12ExplicitDescriptorCache

theorem AllocateDeduplicated_records (cfg : BuildConfig) (c : State)
    (versions descs : List Nat) (t : EHeapType) (wi : Nat)
    (hwi : wi < c.WorkerData.length) :
    mapFind (((AllocateDeduplicated cfg c versions descs t wi).2.workerAt wi).getMap t)
        (Nat.xor (cfg.hashBuffer versions) (cfg.hashBuffer descs)) =
      some (AllocateDeduplicated cfg c versions descs t wi).1 ∧
    (AllocateDeduplicated cfg c versions descs t wi).2.WorkerData.length =
      c.WorkerData.length := by
  unfold AllocateDeduplicated
  dsimp only
  split
  · -- worker-map hit: the stored offset is returned and recorded
    rename_i hguard
    rw [workerAt_setWorkerMap _ _ _ hwi, getMap_setMap]
    refine ⟨?_, length_setWorkerMap c wi t _⟩
    cases hex : mapFind ((c.workerAt wi).getMap t)
        (Nat.xor (cfg.hashBuffer versions) (cfg.hashBuffer descs)) with
    | none =>
      rw [hex] at hguard
      simp [INDEX_NONE] at hguard
    | some v =>
      simpa using hex
  · -- worker-map miss
    split
    · -- exhaustive sampler search found an existing identical run
      rw [workerAt_setWorkerMap _ _ _ (by rw [length_setWorkerMap]; exact hwi), getMap_setMap]
      exact ⟨mapFind_mapSet _ _ _, by rw [length_setWorkerMap, length_setWorkerMap]⟩
    · -- fresh allocation; its result is recorded in the worker's map
      have hlen : wi < (Allocate cfg
          (c.setWorkerMap wi t
            (if (mapFind ((c.workerAt wi).getMap t)
                  (Nat.xor (cfg.hashBuffer versions) (cfg.hashBuffer descs))).isSome
             then (c.workerAt wi).getMap t
             else (Nat.xor (cfg.hashBuffer versions) (cfg.hashBuffer descs), INDEX_NONE) ::
                  (c.workerAt wi).getMap t))
          descs t wi).2.WorkerData.length := by
        rw [Allocate_WorkerData_length, length_setWorkerMap]
        exact hwi
      rw [workerAt_setWorkerMap _ _ _ hlen, getMap_setMap]
      refine ⟨mapFind_mapSet _ _ _, ?_⟩
      rw [length_setWorkerMap, Allocate_WorkerData_length, length_setWorkerMap]

end FD3D12ExplicitDescriptorCache

/-! ## Claims -/


open FD3D12ExplicitDescriptorHeap in
/-- Claim C1: over any sequence of `Allocate` calls on one freshly initialized
heap, the sum of the counts of calls that return a non-failure offset never
exceeds `MaxNumDescriptors`; a call returns the sentinel `-1` exactly when the
cumulative request total (over all calls so far, successful or not) exceeds
capacity; successful calls return pairwise disjoint ranges; and the
allocation cursor only grows as further calls are appended. -/
theorem claim_C1_linear_heap_invariants (t : EHeapType) (maxD : Nat) (dedup : Bool)
    (g : Globals) (ns : List Nat) :
    (∑ i ∈ Finset.range ns.length,
        if (runAllocate (fresh t maxD dedup) g ns).2.2.getD i 0 ≠ -1
        then ns.getD i 0 else 0) ≤ maxD ∧
    (∀ i, i < ns.length →
      ((runAllocate (fresh t maxD dedup) g ns).2.2.getD i 0 = -1 ↔
        maxD < (ns.take (i + 1)).sum)) ∧
    (∀ i, i < ns.length →
      (runAllocate (fresh t maxD dedup) g ns).2.2.getD i 0 ≠ -1 →
      (runAllocate (fresh t maxD dedup) g ns).2.2.getD i 0 = (((ns.take i).sum : Nat) : Int)) ∧
    (∀ i j, i < ns.length → j < ns.length → i ≠ j →
      (runAllocate (fresh t maxD dedup) g ns).2.2.getD i 0 ≠ -1 →
      (runAllocate (fresh t maxD dedup) g ns).2.2.getD j 0 ≠ -1 →
      (runAllocate (fresh t maxD dedup) g ns).2.2.getD i 0 + (ns.getD i 0 : Int) ≤
        (runAllocate (fresh t maxD dedup) g ns).2.2.getD j 0 ∨
      (runAllocate (fresh t maxD dedup) g ns).2.2.getD j 0 + (ns.getD j 0 : Int) ≤
        (runAllocate (fresh t maxD dedup) g ns).2.2.getD i 0) ∧
    (∀ ms : List Nat,
      (runAllocate (fresh t maxD dedup) g ns).1.NumAllocatedDescriptors ≤
        (runAllocate (fresh t maxD dedup) g (ns ++ ms)).1.NumAllocatedDescriptors) := by
  have hfail : ∀ i, i < ns.length →
      ((runAllocate (fresh t maxD dedup) g ns).2.2.getD i 0 = -1 ↔
        maxD < (ns.take (i + 1)).sum) := by
    intro i hi
    rw [runAllocate_getD ns _ g i hi]
    simp only [fresh]
    split
    · rename_i hc
      simp only [Nat.zero_add] at hc
      simpa using hc
    · rename_i hc
      constructor
      · intro he
        omega
      · intro hs
        omega
  have hval : ∀ i, i < ns.length →
      (runAllocate (fresh t maxD dedup) g ns).2.2.getD i 0 ≠ -1 →
      (runAllocate (fresh t maxD dedup) g ns).2.2.getD i 0 = (((ns.take i).sum : Nat) : Int) := by
    intro i hi hne
    rw [runAllocate_getD ns _ g i hi] at hne ⊢
    simp only [fresh] at hne ⊢
    split at hne
    · exact absurd rfl hne
    · split
      · rename_i hc1 hc2
        exact absurd hc2 hc1
      · simp
  refine ⟨?_, hfail, hval, ?_, ?_⟩
  · have ha := (runAllocate_acceptedSum ns (fresh t maxD dedup) g).1 (by simp [fresh])
    simpa [fresh] using ha
  · -- disjointness of successful ranges
    have key : ∀ a b, a < b → b < ns.length →
        (runAllocate (fresh t maxD dedup) g ns).2.2.getD a 0 ≠ -1 →
        (runAllocate (fresh t maxD dedup) g ns).2.2.getD b 0 ≠ -1 →
        (runAllocate (fresh t maxD dedup) g ns).2.2.getD a 0 + (ns.getD a 0 : Int) ≤
          (runAllocate (fresh t maxD dedup) g ns).2.2.getD b 0 := by
      intro a b hab hb ha hbne
      rw [hval a (lt_trans hab hb) ha, hval b hb hbne]
      have h1 : (ns.take (a + 1)).sum = (ns.take a).sum + ns.getD a 0 :=
        take_succ_sum ns (lt_trans hab hb)
      have h2 : (ns.take (a + 1)).sum ≤ (ns.take b).sum := take_sum_mono ns hab
      omega
    intro i j hi hj hij hri hrj
    rcases Nat.lt_or_ge i j with hlt | hge
    · exact Or.inl (key i j hlt hj hri hrj)
    · have hlt : j < i := lt_of_le_of_ne hge (fun he => hij he.symm)
      exact Or.inr (key j i hlt hi hrj hri)
  · intro ms
    rw [runAllocate_heap, runAllocate_heap]
    simp [List.sum_append]

open FD3D12ExplicitDescriptorHeap in
/-- Witness for C1: instantiated on a fresh view heap of capacity 10 with the
call sequence `[5, 100, 3]`; the second call overflows (5 + 100 > 10). -/
theorem claim_C1_witness :
    (runAllocate (fresh EHeapType.CbvSrvUav 10 false) Globals.default [5, 100, 3]).2.2.getD 1 0 = -1 ↔
      10 < (([5, 100, 3] : List Nat).take 2).sum :=
  (claim_C1_linear_heap_invariants EHeapType.CbvSrvUav 10 false Globals.default
    [5, 100, 3]).2.1 1 (by decide)

open FD3D12ExplicitDescriptorHeap in
/-- Claim C10: the atomic cursor is advanced by every requested count,
successful or not, and is never decremented (after the run it equals the sum
of all requests); consequently once a positive-count `Allocate` call has
returned `-1` on a heap, every later positive-count call also returns `-1`. -/
theorem claim_C10_failed_allocate_poisons_heap (t : EHeapType) (maxD : Nat)
    (dedup : Bool) (g : Globals) (ns : List Nat) :
    ((runAllocate (fresh t maxD dedup) g ns).1.NumAllocatedDescriptors = ns.sum) ∧
    (∀ i j, i < j → j < ns.length → 0 < ns.getD i 0 → 0 < ns.getD j 0 →
      (runAllocate (fresh t maxD dedup) g ns).2.2.getD i 0 = -1 →
      (runAllocate (fresh t maxD dedup) g ns).2.2.getD j 0 = -1) := by
  constructor
  · rw [runAllocate_heap]
    simp [fresh]
  · intro i j hij hj _ _ hri
    have hi : i < ns.length := lt_trans hij hj
    rw [runAllocate_getD ns _ g i hi] at hri
    rw [runAllocate_getD ns _ g j hj]
    simp only [fresh] at hri ⊢
    split at hri
    · rename_i hc
      have hmono : (ns.take (i + 1)).sum ≤ (ns.take (j + 1)).sum :=
        take_sum_mono ns (by omega)
      rw [if_pos (by simp only [Nat.zero_add] at hc ⊢; omega)]
    · omega

open FD3D12ExplicitDescriptorHeap in
/-- Witness for C10: on a fresh view heap of capacity 10 with calls
`[5, 100, 3]`, the second call (count 100) fails, so the third call
(count 3, which would have fit in the remaining 5 slots) also fails. -/
theorem claim_C10_witness :
    (runAllocate (fresh EHeapType.CbvSrvUav 10 false) Globals.default [5, 100, 3]).2.2.getD 2 0 = -1 :=
  (claim_C10_failed_allocate_poisons_heap EHeapType.CbvSrvUav 10 false Globals.default
    [5, 100, 3]).2 1 2 (by decide) (by decide) (by decide) (by decide) (by decide)

/-- Claim C3: in the default build (full-compare validation compiled out),
two `AllocateDeduplicated` calls on the same worker and heap type with
identical descriptor-version and descriptor-handle arrays return the same
base offset, and the second call changes nothing at all — no new heap
allocation, no descriptor copy, no map insertion (the worker's per-heap-type
map maps the XxHash64-XOR fingerprint to the stored offset).  Stated for any
deterministic digest function and any starting cache state whose first call
succeeds. -/
theorem claim_C3_deduplication_idempotent
    (cfg : FD3D12ExplicitDescriptorCache.BuildConfig)
    (c : FD3D12ExplicitDescriptorCache.State)
    (versions descs : List Nat) (t : EHeapType) (wi : Nat)
    (hfc : cfg.fullCompare = false)
    (hwi : wi < c.WorkerData.length)
    (hok : (FD3D12ExplicitDescriptorCache.AllocateDeduplicated cfg c versions descs t wi).1 ≠
      INDEX_NONE) :
    FD3D12ExplicitDescriptorCache.AllocateDeduplicated cfg
        (FD3D12ExplicitDescriptorCache.AllocateDeduplicated cfg c versions descs t wi).2
        versions descs t wi =
      ((FD3D12ExplicitDescriptorCache.AllocateDeduplicated cfg c versions descs t wi).1,
       (FD3D12ExplicitDescriptorCache.AllocateDeduplicated cfg c versions descs t wi).2) := by
  have hrec := FD3D12ExplicitDescriptorCache.AllocateDeduplicated_records cfg c versions descs
    t wi hwi
  generalize hR : FD3D12ExplicitDescriptorCache.AllocateDeduplicated cfg c versions descs t wi = R
    at hrec hok ⊢
  unfold FD3D12ExplicitDescriptorCache.AllocateDeduplicated
  dsimp only
  rw [hrec.1]
  simp only [Option.isSome_some, if_true, Option.getD_some, hfc]
  split
  · -- the hit path returns the stored offset and leaves the state unchanged
    rw [FD3D12ExplicitDescriptorCache.setWorkerMap_self _ _ (hrec.2 ▸ hwi)]
  · rename_i hguard
    exact absurd ⟨hok, Or.inl trivial⟩ hguard

/-- Witness for C3: a two-worker session allocating the sampler table
`[10, 20]` twice from worker 0; the first call returns offset 0 and the
second returns the same offset with the state unchanged. -/
theorem claim_C3_witness :
    FD3D12ExplicitDescriptorCache.AllocateDeduplicated
        { fullCompare := false, hashBuffer := fun l => l.sum }
        (FD3D12ExplicitDescriptorCache.AllocateDeduplicated
          { fullCompare := false, hashBuffer := fun l => l.sum }
          { ViewHeap := FD3D12ExplicitDescriptorHeap.fresh EHeapType.CbvSrvUav 16 true
          , SamplerHeap := FD3D12ExplicitDescriptorHeap.fresh EHeapType.Sampler 8 true
          , WorkerData := [default, default]
          , globals := Globals.default }
          [1] [10, 20] EHeapType.Sampler 0).2
        [1] [10, 20] EHeapType.Sampler 0 =
      ((FD3D12ExplicitDescriptorCache.AllocateDeduplicated
          { fullCompare := false, hashBuffer := fun l => l.sum }
          { ViewHeap := FD3D12ExplicitDescriptorHeap.fresh EHeapType.CbvSrvUav 16 true
          , SamplerHeap := FD3D12ExplicitDescriptorHeap.fresh EHeapType.Sampler 8 true
          , WorkerData := [default, default]
          , globals := Globals.default }
          [1] [10, 20] EHeapType.Sampler 0).1,
       (FD3D12ExplicitDescriptorCache.AllocateDeduplicated
          { fullCompare := false, hashBuffer := fun l => l.sum }
          { ViewHeap := FD3D12ExplicitDescriptorHeap.fresh EHeapType.CbvSrvUav 16 true
          , SamplerHeap := FD3D12ExplicitDescriptorHeap.fresh EHeapType.Sampler 8 true
          , WorkerData := [default, default]
          , globals := Globals.default }
          [1] [10, 20] EHeapType.Sampler 0).2) :=
  claim_C3_deduplication_idempotent
    { fullCompare := false, hashBuffer := fun l => l.sum }
    { ViewHeap := FD3D12ExplicitDescriptorHeap.fresh EHeapType.CbvSrvUav 16 true
    , SamplerHeap := FD3D12ExplicitDescriptorHeap.fresh EHeapType.Sampler 8 true
    , WorkerData := [default, default]
    , globals := Globals.default }
    [1] [10, 20] EHeapType.Sampler 0 rfl (by decide) (by decide)

/-- Claim C4 (code evaluated at the failing input): with exhaustive sampler
deduplication enabled and two workers, worker 0 writes sampler tables `[10]`,
`[20]`, `[30]` at offsets 0, 1, 2 (written count 3, the value 10 present in
heap memory at offset 0).  Worker 1 then requests the identical table `[10]`:
its own map misses, and contrary to the claim the linear scan does not find
the byte-identical run — in the default build the shadow array the scan
compares against is never written — so the call allocates fresh offset 3 and
writes anew (written count 4).  Even with full-compare compiled in (shadow
maintained), a two-descriptor run ending exactly at the written count is
excluded by the scan bound `SearchIndex + NumDescriptors < SearchEndPos`, so
worker 1 still allocates offset 2 instead of reusing offset 0. -/
theorem claim_C4_exhaustive_sampler_search_misses :
    (FD3D12ExplicitDescriptorCache.AllocateDeduplicated sampleCfgDefault twoWorkerSession
      [1] [10] EHeapType.Sampler 0).1 = 0 ∧
    (FD3D12ExplicitDescriptorCache.AllocateDeduplicated sampleCfgDefault samplerScenario1
      [2] [20] EHeapType.Sampler 0).1 = 1 ∧
    (FD3D12ExplicitDescriptorCache.AllocateDeduplicated sampleCfgDefault samplerScenario2
      [3] [30] EHeapType.Sampler 0).1 = 2 ∧
    samplerScenario3.SamplerHeap.HeapMemory.getD 0 0 = 10 ∧
    samplerScenario3.SamplerHeap.NumWrittenSamplerDescriptors = 3 ∧
    samplerScenario3.SamplerHeap.bExhaustiveSamplerDeduplication = true ∧
    samplerScenario3.WorkerData.length = 2 ∧
    (samplerScenario3.workerAt 1).getMap EHeapType.Sampler = [] ∧
    (FD3D12ExplicitDescriptorCache.AllocateDeduplicated sampleCfgDefault samplerScenario3
      [1] [10] EHeapType.Sampler 1).1 = 3 ∧
    (FD3D12ExplicitDescriptorCache.AllocateDeduplicated sampleCfgDefault samplerScenario3
      [1] [10] EHeapType.Sampler 1).2.SamplerHeap.NumWrittenSamplerDescriptors = 4 ∧
    (FD3D12ExplicitDescriptorCache.AllocateDeduplicated sampleCfgFullCompare twoWorkerSession
      [1] [10, 11] EHeapType.Sampler 0).1 = 0 ∧
    samplerScenarioFull1.SamplerHeap.Descriptors.getD 0 0 = 10 ∧
    samplerScenarioFull1.SamplerHeap.Descriptors.getD 1 0 = 11 ∧
    samplerScenarioFull1.SamplerHeap.NumWrittenSamplerDescriptors = 2 ∧
    (FD3D12ExplicitDescriptorCache.AllocateDeduplicated sampleCfgFullCompare samplerScenarioFull1
      [1] [10, 11] EHeapType.Sampler 1).1 = 2 := by
  decide

open FD3D12ExplicitDescriptorHeapCache in
/-- Claim C6: a call satisfied from the free list purges nothing (the
deferred-deletion queue is untouched and no heap is created); a call that
misses purges exactly the stale entries — those whose last-used frame is at
least 100 frames old or whose last-used time is at least 5 seconds old — by
scheduling them on the deferred-deletion queue (never releasing them
synchronously), and then creates a new heap. -/
theorem claim_C6_purge_only_on_miss (st : FD3D12ExplicitDescriptorHeapCache.State)
    (t : EHeapType) (n cf ct : Nat) :
    ((findEntryIdx (entryMatches t (allocateHeapCapacity t n)) st.FreeList).isSome = true →
      (AllocateHeap st t n cf ct).2.DeferredDeletions = st.DeferredDeletions ∧
      (AllocateHeap st t n cf ct).2.NextHeapId = st.NextHeapId) ∧
    (findEntryIdx (entryMatches t (allocateHeapCapacity t n)) st.FreeList = none →
      ∃ rem : List FEntry,
        rem.Perm (st.FreeList.filter (isStale 100 5 cf ct)) ∧
        (AllocateHeap st t n cf ct).2.DeferredDeletions =
          st.DeferredDeletions ++ rem.map (·.HeapId) ∧
        (AllocateHeap st t n cf ct).2.FreeList.Perm
          (st.FreeList.filter (fun e => !isStale 100 5 cf ct e)) ∧
        (AllocateHeap st t n cf ct).1.HeapId = st.NextHeapId ∧
        (AllocateHeap st t n cf ct).2.NextHeapId = st.NextHeapId + 1) := by
  constructor
  · intro hsome
    obtain ⟨ie, hie⟩ := Option.isSome_iff_exists.mp hsome
    rw [AllocateHeap_hit st t n cf ct ie.1 ie.2 hie]
    exact ⟨rfl, rfl⟩
  · intro hnone
    refine ⟨(releaseStaleLoop (isStale 100 5 cf ct) st.FreeList 0).2,
      (releaseStaleLoop_filter _ _).2, ?_, ?_, ?_, ?_⟩
    · rw [AllocateHeap_miss st t n cf ct hnone]
    · rw [AllocateHeap_miss st t n cf ct hnone]
      exact (releaseStaleLoop_filter _ _).1
    · rw [AllocateHeap_miss st t n cf ct hnone]
    · rw [AllocateHeap_miss st t n cf ct hnone]

open FD3D12ExplicitDescriptorHeapCache in
/-- Witness for C6: a cache whose only free entry is a stale sampler heap
(last used at frame 0, time 0) misses a view-heap request at frame 200 /
time 100, so the entry is purged to the deferred queue and a new heap is
created. -/
theorem claim_C6_witness :
    ∃ rem : List FEntry,
      rem.Perm (({ FreeList := [{ eType := EHeapType.Sampler, NumDescriptors := 4, HeapId := 7
                                , LastUsedFrame := 0, LastUsedTime := 0 }]
                 , NumAllocatedEntries := 0, DeferredDeletions := [], NextHeapId := 9 } :
          FD3D12ExplicitDescriptorHeapCache.State).FreeList.filter (isStale 100 5 200 100)) ∧
      (AllocateHeap { FreeList := [{ eType := EHeapType.Sampler, NumDescriptors := 4, HeapId := 7
                                   , LastUsedFrame := 0, LastUsedTime := 0 }]
                    , NumAllocatedEntries := 0, DeferredDeletions := [], NextHeapId := 9 }
          EHeapType.CbvSrvUav 1 200 100).2.DeferredDeletions =
        ({ FreeList := [{ eType := EHeapType.Sampler, NumDescriptors := 4, HeapId := 7
                        , LastUsedFrame := 0, LastUsedTime := 0 }]
         , NumAllocatedEntries := 0, DeferredDeletions := [], NextHeapId := 9 } :
          FD3D12ExplicitDescriptorHeapCache.State).DeferredDeletions ++ rem.map (·.HeapId) ∧
      (AllocateHeap { FreeList := [{ eType := EHeapType.Sampler, NumDescriptors := 4, HeapId := 7
                                   , LastUsedFrame := 0, LastUsedTime := 0 }]
                    , NumAllocatedEntries := 0, DeferredDeletions := [], NextHeapId := 9 }
          EHeapType.CbvSrvUav 1 200 100).2.FreeList.Perm
        (({ FreeList := [{ eType := EHeapType.Sampler, NumDescriptors := 4, HeapId := 7
                         , LastUsedFrame := 0, LastUsedTime := 0 }]
          , NumAllocatedEntries := 0, DeferredDeletions := [], NextHeapId := 9 } :
          FD3D12ExplicitDescriptorHeapCache.State).FreeList.filter
            (fun e => !isStale 100 5 200 100 e)) ∧
      (AllocateHeap { FreeList := [{ eType := EHeapType.Sampler, NumDescriptors := 4, HeapId := 7
                                   , LastUsedFrame := 0, LastUsedTime := 0 }]
                    , NumAllocatedEntries := 0, DeferredDeletions := [], NextHeapId := 9 }
          EHeapType.CbvSrvUav 1 200 100).1.HeapId = 9 ∧
      (AllocateHeap { FreeList := [{ eType := EHeapType.Sampler, NumDescriptors := 4, HeapId := 7
                                   , LastUsedFrame := 0, LastUsedTime := 0 }]
                    , NumAllocatedEntries := 0, DeferredDeletions := [], NextHeapId := 9 }
          EHeapType.CbvSrvUav 1 200 100).2.NextHeapId = 9 + 1 :=
  (claim_C6_purge_only_on_miss
    { FreeList := [{ eType := EHeapType.Sampler, NumDescriptors := 4, HeapId := 7
                   , LastUsedFrame := 0, LastUsedTime := 0 }]
    , NumAllocatedEntries := 0, DeferredDeletions := [], NextHeapId := 9 }
    EHeapType.CbvSrvUav 1 200 100).2 (by decide)

open FD3D12ExplicitDescriptorHeapCache in
/-- Claim C8: `AllocateHeap` is satisfied from the free list exactly when
some entry has the same heap type and capacity at least the rounded, clamped
request; on a hit it removes the first such entry by `RemoveAtSwap` (the
free list keeps the same entries minus that one, in swapped order); the
returned entry always has at least the clamped capacity; and
`FD3D12ExplicitDescriptorHeap::Init` adopts the returned entry's actual
capacity as `MaxNumDescriptors`. -/
theorem claim_C8_free_list_reuse (st : FD3D12ExplicitDescriptorHeapCache.State)
    (t : EHeapType) (n cf ct : Nat) (dedup fc : Bool) :
    ((findEntryIdx (entryMatches t (allocateHeapCapacity t n)) st.FreeList).isSome = true ↔
      ∃ e ∈ st.FreeList, e.eType = t ∧ allocateHeapCapacity t n ≤ e.NumDescriptors) ∧
    (∀ i e, findEntryIdx (entryMatches t (allocateHeapCapacity t n)) st.FreeList =
        some (i, e) →
      (AllocateHeap st t n cf ct).1 = e ∧
      (AllocateHeap st t n cf ct).2.FreeList = removeAtSwap st.FreeList i ∧
      ∃ hi : i < st.FreeList.length, st.FreeList[i] = e ∧
        entryMatches t (allocateHeapCapacity t n) e = true ∧
        (∀ j (hj : j < st.FreeList.length), j < i →
          entryMatches t (allocateHeapCapacity t n) st.FreeList[j] = false) ∧
        st.FreeList.Perm (e :: (AllocateHeap st t n cf ct).2.FreeList)) ∧
    allocateHeapCapacity t n ≤ (AllocateHeap st t n cf ct).1.NumDescriptors ∧
    (FD3D12ExplicitDescriptorHeap.Init st n t cf ct dedup fc).1.MaxNumDescriptors =
      (AllocateHeap st t n cf ct).1.NumDescriptors := by
  refine ⟨?_, ?_, ?_, rfl⟩
  · rw [findEntryIdx_isSome_iff]
    simp [entryMatches]
  · intro i e hfind
    obtain ⟨hi, hget, hpe, hmin⟩ := findEntryIdx_some_spec _ st.FreeList i e hfind
    rw [AllocateHeap_hit st t n cf ct i e hfind]
    refine ⟨rfl, rfl, hi, hget, hpe, fun j hj hji => hmin j hj hji, ?_⟩
    have hperm := removeAtSwap_perm st.FreeList i hi
    rw [hget] at hperm
    exact hperm
  · cases hfind : findEntryIdx (entryMatches t (allocateHeapCapacity t n)) st.FreeList with
    | none =>
      rw [AllocateHeap_miss st t n cf ct hfind]
    | some ie =>
      obtain ⟨hi, hget, hpe, hmin⟩ := findEntryIdx_some_spec _ st.FreeList ie.1 ie.2 hfind
      rw [AllocateHeap_hit st t n cf ct ie.1 ie.2 hfind]
      simp only [entryMatches, Bool.and_eq_true, decide_eq_true_eq] at hpe
      exact hpe.2

open FD3D12ExplicitDescriptorHeapCache in
/-- Witness for C8: a view request for 5 descriptors (clamped to 8) is served
by the free-list entry of capacity 8 at index 0. -/
theorem claim_C8_witness :
    (AllocateHeap { FreeList := [{ eType := EHeapType.CbvSrvUav, NumDescriptors := 8, HeapId := 3
                                 , LastUsedFrame := 0, LastUsedTime := 0 }]
                  , NumAllocatedEntries := 0, DeferredDeletions := [], NextHeapId := 5 }
        EHeapType.CbvSrvUav 5 0 0).1 =
      ({ eType := EHeapType.CbvSrvUav, NumDescriptors := 8, HeapId := 3
       , LastUsedFrame := 0, LastUsedTime := 0 } : FEntry) ∧
    (AllocateHeap { FreeList := [{ eType := EHeapType.CbvSrvUav, NumDescriptors := 8, HeapId := 3
                                 , LastUsedFrame := 0, LastUsedTime := 0 }]
                  , NumAllocatedEntries := 0, DeferredDeletions := [], NextHeapId := 5 }
        EHeapType.CbvSrvUav 5 0 0).2.FreeList =
      removeAtSwap
        ({ FreeList := [{ eType := EHeapType.CbvSrvUav, NumDescriptors := 8, HeapId := 3
                        , LastUsedFrame := 0, LastUsedTime := 0 }]
         , NumAllocatedEntries := 0, DeferredDeletions := [], NextHeapId := 5 } :
          FD3D12ExplicitDescriptorHeapCache.State).FreeList 0 ∧
    ∃ hi : 0 < ({ FreeList := [{ eType := EHeapType.CbvSrvUav, NumDescriptors := 8, HeapId := 3
                               , LastUsedFrame := 0, LastUsedTime := 0 }]
                , NumAllocatedEntries := 0, DeferredDeletions := [], NextHeapId := 5 } :
          FD3D12ExplicitDescriptorHeapCache.State).FreeList.length,
      ({ FreeList := [{ eType := EHeapType.CbvSrvUav, NumDescriptors := 8, HeapId := 3
                      , LastUsedFrame := 0, LastUsedTime := 0 }]
       , NumAllocatedEntries := 0, DeferredDeletions := [], NextHeapId := 5 } :
        FD3D12ExplicitDescriptorHeapCache.State).FreeList[0] =
        ({ eType := EHeapType.CbvSrvUav, NumDescriptors := 8, HeapId := 3
         , LastUsedFrame := 0, LastUsedTime := 0 } : FEntry) ∧
      entryMatches EHeapType.CbvSrvUav
          (allocateHeapCapacity EHeapType.CbvSrvUav 5)
          ({ eType := EHeapType.CbvSrvUav, NumDescriptors := 8, HeapId := 3
           , LastUsedFrame := 0, LastUsedTime := 0 } : FEntry) = true ∧
      (∀ j (hj : j < ({ FreeList := [{ eType := EHeapType.CbvSrvUav, NumDescriptors := 8, HeapId := 3
                                     , LastUsedFrame := 0, LastUsedTime := 0 }]
                      , NumAllocatedEntries := 0, DeferredDeletions := [], NextHeapId := 5 } :
            FD3D12ExplicitDescriptorHeapCache.State).FreeList.length), j < 0 →
        entryMatches EHeapType.CbvSrvUav (allocateHeapCapacity EHeapType.CbvSrvUav 5)
          ({ FreeList := [{ eType := EHeapType.CbvSrvUav, NumDescriptors := 8, HeapId := 3
                          , LastUsedFrame := 0, LastUsedTime := 0 }]
           , NumAllocatedEntries := 0, DeferredDeletions := [], NextHeapId := 5 } :
            FD3D12ExplicitDescriptorHeapCache.State).FreeList[j] = false) ∧
      ({ FreeList := [{ eType := EHeapType.CbvSrvUav, NumDescriptors := 8, HeapId := 3
                      , LastUsedFrame := 0, LastUsedTime := 0 }]
       , NumAllocatedEntries := 0, DeferredDeletions := [], NextHeapId := 5 } :
        FD3D12ExplicitDescriptorHeapCache.State).FreeList.Perm
        (({ eType := EHeapType.CbvSrvUav, NumDescriptors := 8, HeapId := 3
          , LastUsedFrame := 0, LastUsedTime := 0 } : FEntry) ::
          (AllocateHeap { FreeList := [{ eType := EHeapType.CbvSrvUav, NumDescriptors := 8, HeapId := 3
                                       , LastUsedFrame := 0, LastUsedTime := 0 }]
                        , NumAllocatedEntries := 0, DeferredDeletions := [], NextHeapId := 5 }
              EHeapType.CbvSrvUav 5 0 0).2.FreeList) :=
  (claim_C8_free_list_reuse
    { FreeList := [{ eType := EHeapType.CbvSrvUav, NumDescriptors := 8, HeapId := 3
                   , LastUsedFrame := 0, LastUsedTime := 0 }]
    , NumAllocatedEntries := 0, DeferredDeletions := [], NextHeapId := 5 }
    EHeapType.CbvSrvUav 5 0 0 false false).2.1 0
    { eType := EHeapType.CbvSrvUav, NumDescriptors := 8, HeapId := 3
    , LastUsedFrame := 0, LastUsedTime := 0 } (by decide)

open FD3D12ExplicitDescriptorHeap in
/-- Counterexample to claim C5 as stated: a view heap whose capacity (1024)
is below the configured `GD3D12ExplicitViewDescriptorHeapSize` cvar (default
250000) overflows without any error report at all — the overflow in this
heap's lifetime is reported zero times, not exactly once. -/
theorem claim_C5_counterexample :
    (runAllocate (fresh EHeapType.CbvSrvUav 1024 false) Globals.default [2048]).2.2.getD 0 0 = -1 ∧
    (runAllocate (fresh EHeapType.CbvSrvUav 1024 false) Globals.default [2048]).2.1.errorLogCount = 0 ∧
    (runAllocate (fresh EHeapType.CbvSrvUav 1024 false) Globals.default [2048]).2.1.fatalCount = 0 := by
  decide

open FD3D12ExplicitDescriptorHeap in
/-- Claim C5 (amended): on overflow a sampler heap raises the fatal path
while a view heap returns `-1` without ever raising it; the view-overflow
error is reported at most once per process — it is logged exactly when the
heap overflows, the heap has reached the configured
`GD3D12ExplicitViewDescriptorHeapSize`, and the process-wide atomic flag
(shared by all heaps) was still unset — so repeated overflows across calls
never re-report, and a heap smaller than the cvar never reports. -/
theorem claim_C5_overflow_handling_amended (h : State) (g : Globals) (n : Nat)
    (ns : List Nat) :
    (h.heapType = EHeapType.Sampler →
      h.MaxNumDescriptors < h.NumAllocatedDescriptors + n →
      (Allocate h g n).1 = -1 ∧
      (Allocate h g n).2.2.fatalCount = g.fatalCount + 1) ∧
    (h.heapType = EHeapType.CbvSrvUav →
      (Allocate h g n).2.2.fatalCount = g.fatalCount ∧
      (h.MaxNumDescriptors < h.NumAllocatedDescriptors + n → (Allocate h g n).1 = -1)) ∧
    (h.heapType = EHeapType.CbvSrvUav →
      ((Allocate h g n).2.2.errorLogCount = g.errorLogCount + 1 ↔
        (h.MaxNumDescriptors < h.NumAllocatedDescriptors + n ∧
         g.viewDescriptorHeapSize ≤ h.MaxNumDescriptors ∧
         g.overflowReported = false))) ∧
    (g.overflowReported = true →
      (runAllocate h g ns).2.1.errorLogCount = g.errorLogCount) ∧
    (g.overflowReported = false →
      (runAllocate h g ns).2.1.errorLogCount ≤ g.errorLogCount + 1) := by
  refine ⟨?_, ?_, ?_,
    fun hg => (runAllocate_log_flag_true ns h g hg).1,
    fun hg => runAllocate_log_once ns h g hg⟩
  · intro hs hov
    rw [Allocate_result, Allocate_globals]
    rw [if_pos hov, if_pos hov, if_pos hs]
    exact ⟨rfl, rfl⟩
  · intro hv
    constructor
    · rw [Allocate_globals]
      split_ifs <;> simp_all
    · intro hov
      rw [Allocate_result, if_pos hov]
  · intro hv
    rw [Allocate_globals]
    by_cases hov : h.MaxNumDescriptors < h.NumAllocatedDescriptors + n
    · by_cases hsz : g.viewDescriptorHeapSize ≤ h.MaxNumDescriptors
      · by_cases hrep : g.overflowReported = true
        · simp [hov, hsz, hrep, hv]
        · simp only [Bool.not_eq_true] at hrep
          simp [hov, hsz, hrep, hv]
      · simp [hov, hsz, hv]
    · simp [hov, hv]

open FD3D12ExplicitDescriptorHeap in
/-- Witness for C5 (amended): a sampler heap of capacity 4 overflowing on a
request of 5 raises the fatal path and returns `-1`. -/
theorem claim_C5_witness :
    (Allocate (fresh EHeapType.Sampler 4 true) Globals.default 5).1 = -1 ∧
    (Allocate (fresh EHeapType.Sampler 4 true) Globals.default 5).2.2.fatalCount =
      Globals.default.fatalCount + 1 :=
  (claim_C5_overflow_handling_amended (fresh EHeapType.Sampler 4 true)
    Globals.default 5 []).1 rfl (by decide)

/-- Claim C2: `AllocateHeap` rounds the requested count up to the next power
of two (the least power of two at least the request, for any request in the
`uint32` range) and clamps it to the type's ceiling
(`D3D12_MAX_SHADER_VISIBLE_SAMPLER_HEAP_SIZE` for sampler heaps,
`D3D12_MAX_SHADER_VISIBLE_DESCRIPTOR_HEAP_SIZE_TIER_1` for view heaps); in
particular, on an empty free list a request for 70000 view descriptors
creates a heap of capacity 131072 and a request for 3000 sampler descriptors
creates a heap of capacity 2048. -/
theorem claim_C2_allocate_heap_rounds_and_clamps :
    (∀ (t : EHeapType) (n : Nat), 1 ≤ n → n ≤ 2 ^ 32 →
      (∃ j, RoundUpToPowerOfTwo n = 2 ^ j) ∧
      n ≤ RoundUpToPowerOfTwo n ∧
      RoundUpToPowerOfTwo n < 2 * n ∧
      FD3D12ExplicitDescriptorHeapCache.allocateHeapCapacity t n =
        min (RoundUpToPowerOfTwo n)
          (if t = EHeapType.Sampler then D3D12_MAX_SHADER_VISIBLE_SAMPLER_HEAP_SIZE
           else D3D12_MAX_SHADER_VISIBLE_DESCRIPTOR_HEAP_SIZE_TIER_1)) ∧
    (FD3D12ExplicitDescriptorHeapCache.AllocateHeap
      { FreeList := [], NumAllocatedEntries := 0, DeferredDeletions := [], NextHeapId := 0 }
      EHeapType.CbvSrvUav 70000 0 0).1.NumDescriptors = 131072 ∧
    (FD3D12ExplicitDescriptorHeapCache.AllocateHeap
      { FreeList := [], NumAllocatedEntries := 0, DeferredDeletions := [], NextHeapId := 0 }
      EHeapType.Sampler 3000 0 0).1.NumDescriptors = 2048 := by
  refine ⟨?_, by decide, by decide⟩
  intro t n h1 h32
  exact ⟨RoundUpToPowerOfTwo_isPow2 n, RoundUpToPowerOfTwo_ge n h32,
    RoundUpToPowerOfTwo_lt n h1, rfl⟩

/-- Witness for C2: instantiated at `n = 70000` (view type). -/
theorem claim_C2_witness :
    (∃ j, RoundUpToPowerOfTwo 70000 = 2 ^ j) ∧
    70000 ≤ RoundUpToPowerOfTwo 70000 ∧
    RoundUpToPowerOfTwo 70000 < 2 * 70000 ∧
    FD3D12ExplicitDescriptorHeapCache.allocateHeapCapacity EHeapType.CbvSrvUav 70000 =
      min (RoundUpToPowerOfTwo 70000)
        (if EHeapType.CbvSrvUav = EHeapType.Sampler
         then D3D12_MAX_SHADER_VISIBLE_SAMPLER_HEAP_SIZE
         else D3D12_MAX_SHADER_VISIBLE_DESCRIPTOR_HEAP_SIZE_TIER_1) :=
  claim_C2_allocate_heap_rounds_and_clamps.1 EHeapType.CbvSrvUav 70000
    (by decide) (by decide)

/-- Counterexample to claim C7 as stated: with bindless resource views but a
nonzero constant-descriptor count, `Init` still allocates the view heap
(sized to the constant count) — it is not skipped. -/
theorem claim_C7_counterexample :
    (FD3D12ExplicitDescriptorCache.InitSizes 5 7 3 true false).1 = some 5 ∧
    (FD3D12ExplicitDescriptorCache.InitSizes 5 7 3 true false).1 ≠ none := by
  decide

/-- Claim C7 (amended): the sampler heap is skipped exactly when samplers are
bindless (and otherwise sized to `NumSamplerDescriptors`); the view heap is
skipped exactly when `NumConstantDescriptors + (bindless-views ? 0 :
NumViewDescriptors)` is zero — with bindless views it is still allocated for
the constant descriptors whenever `NumConstantDescriptors` is nonzero, and
without bindless views it is sized to `NumConstantDescriptors +
NumViewDescriptors`. -/
theorem claim_C7_init_bindless_amended
    (nc nv ns : Nat) (bv bs : Bool) :
    ((FD3D12ExplicitDescriptorCache.InitSizes nc nv ns bv bs).1 = none ↔
      nc = 0 ∧ (bv = true ∨ nv = 0)) ∧
    (bv = true → (FD3D12ExplicitDescriptorCache.InitSizes nc nv ns bv bs).1 =
      (if nc = 0 then none else some nc)) ∧
    (bv = false → (FD3D12ExplicitDescriptorCache.InitSizes nc nv ns bv bs).1 =
      (if nc + nv = 0 then none else some (nc + nv))) ∧
    ((FD3D12ExplicitDescriptorCache.InitSizes nc nv ns bv bs).2 = none ↔ bs = true) ∧
    (bs = false → (FD3D12ExplicitDescriptorCache.InitSizes nc nv ns bv bs).2 = some ns) := by
  refine ⟨?_, ?_, ?_, ?_, ?_⟩ <;>
    cases bv <;> cases bs <;>
    simp only [FD3D12ExplicitDescriptorCache.InitSizes] <;> simp <;>
    split_ifs <;> simp_all

/-- Witness for C7 (amended): instantiated at concrete counts and flags. -/
theorem claim_C7_init_bindless_amended_witness :
    ((FD3D12ExplicitDescriptorCache.InitSizes 5 7 3 true false).1 = none ↔
      (5 : Nat) = 0 ∧ (true = true ∨ (7 : Nat) = 0)) ∧
    (true = true → (FD3D12ExplicitDescriptorCache.InitSizes 5 7 3 true false).1 =
      (if (5 : Nat) = 0 then none else some 5)) ∧
    (true = false → (FD3D12ExplicitDescriptorCache.InitSizes 5 7 3 true false).1 =
      (if (5 : Nat) + 7 = 0 then none else some (5 + 7))) ∧
    ((FD3D12ExplicitDescriptorCache.InitSizes 5 7 3 true false).2 = none ↔ false = true) ∧
    (false = false → (FD3D12ExplicitDescriptorCache.InitSizes 5 7 3 true false).2 = some 3) :=
  claim_C7_init_bindless_amended 5 7 3 true false

/-- Claim C9: destroying the heap cache with outstanding entries trips the
`check` assertion; with no outstanding entries the assertion is silent and
every remaining free-list entry's native heap is released. -/
theorem claim_C9_destructor (st : FD3D12ExplicitDescriptorHeapCache.State) :
    ((FD3D12ExplicitDescriptorHeapCache.destruct st).1 = true ↔
      st.NumAllocatedEntries ≠ 0) ∧
    (st.NumAllocatedEntries = 0 →
      (FD3D12ExplicitDescriptorHeapCache.destruct st).1 = false ∧
      (FD3D12ExplicitDescriptorHeapCache.destruct st).2 = st.FreeList.map (·.HeapId)) := by
  constructor
  · simp [FD3D12ExplicitDescriptorHeapCache.destruct]
  · intro h
    simp [FD3D12ExplicitDescriptorHeapCache.destruct, h]

/-- Witness for C9: the empty cache state. -/
theorem claim_C9_destructor_witness :
    ((FD3D12ExplicitDescriptorHeapCache.destruct
        { FreeList := [], NumAllocatedEntries := 0, DeferredDeletions := [], NextHeapId := 0 }).1 = true ↔
      ({ FreeList := [], NumAllocatedEntries := 0, DeferredDeletions := [], NextHeapId := 0 } :
        FD3D12ExplicitDescriptorHeapCache.State).NumAllocatedEntries ≠ 0) ∧
    (({ FreeList := [], NumAllocatedEntries := 0, DeferredDeletions := [], NextHeapId := 0 } :
        FD3D12ExplicitDescriptorHeapCache.State).NumAllocatedEntries = 0 →
      (FD3D12ExplicitDescriptorHeapCache.destruct
        { FreeList := [], NumAllocatedEntries := 0, DeferredDeletions := [], NextHeapId := 0 }).1 = false ∧
      (FD3D12ExplicitDescriptorHeapCache.destruct
        { FreeList := [], NumAllocatedEntries := 0, DeferredDeletions := [], NextHeapId := 0 }).2 =
        ({ FreeList := [], NumAllocatedEntries := 0, DeferredDeletions := [], NextHeapId := 0 } :
          FD3D12ExplicitDescriptorHeapCache.State).FreeList.map (·.HeapId)) :=
  claim_C9_destructor
    { FreeList := [], NumAllocatedEntries := 0, DeferredDeletions := [], NextHeapId := 0 }

end D3D12
